import Mathlib

/-
Verification of the aws-docs-mcp-server core (Cloudflare Workers variant).

Strings are modelled as lists of characters (`List Char`), mirroring the
JavaScript string operations used by the source: `substring` becomes
`drop`/`take`, `includes` becomes a substring scan, template literals become
list concatenation.  The external collaborators (the HTML parser plus the
markdown converter, and the network `fetch` primitive) are passed in as
explicit oracles, since they are third-party libraries, not code of this
repository; every other branch of the source is translated directly.
-/

namespace AwsDocs

/-! ## String model helpers -/

/-- JavaScript `hay.includes(needle)` on the character-list model. -/
def containsSub (hay needle : List Char) : Bool :=
  match hay with
  | [] => needle.isEmpty
  | _ :: t => needle.isPrefixOf hay || containsSub t needle

/-! ## utils.ts: extractContentFromHtml

The parse / selector / turndown pipeline (lines 21-85 of utils.ts) lives in
the external `node-html-parser` and `turndown` libraries; it is abstracted as
a conversion oracle `conv` that either produces markdown or fails (a thrown
exception is an `Except.error` carrying the interpolated error text).  The
wrapper control flow - the empty-input guard, the try/catch, and the
empty-markdown fallback - is translated exactly. -/

def emptyHtmlSentinel : List Char := "<e>Empty HTML content</e>".data

def notSimplifiedSentinel : List Char :=
  "<e>Page failed to be simplified from HTML</e>".data

def convertErrorSentinel (e : List Char) : List Char :=
  "<e>Error converting HTML to Markdown: ".data ++ e ++ "</e>".data

def extractContentFromHtml (conv : List Char → Except (List Char) (List Char))
    (html : List Char) : List Char :=
  if html = [] then emptyHtmlSentinel
  else
    match conv html with
    | .error e => convertErrorSentinel e
    | .ok markdown => if markdown = [] then notSimplifiedSentinel else markdown

/-- A string of the sentinel shape `<e>...</e>` used by the extractor for
every failure outcome. -/
def sentinelWrapped (l : List Char) : Prop :=
  ∃ mid, l = "<e>".data ++ mid ++ "</e>".data

/-! ## utils.ts: isHtmlContent -/

def isHtmlContent (pageRaw contentType : List Char) : Bool :=
  containsSub (pageRaw.take 100) "<html".data ||
    containsSub contentType "text/html".data ||
    contentType.isEmpty

/-! ## utils.ts: formatDocumentationResult -/

def docHeader (url : List Char) : List Char :=
  "AWS Documentation from ".data ++ url ++ ":\n\n".data

def noMoreMessage (url : List Char) : List Char :=
  docHeader url ++ "<e>No more content available.</e>".data

def continuationNote (nextStart : Nat) : List Char :=
  "\n\n<e>Content truncated. Call the read_documentation tool with start_index=".data
    ++ (Nat.repr nextStart).data ++ " to get more content.</e>".data

/-- The slice `content.substring(startIndex, endIndex)` with
`endIndex = Math.min(startIndex + maxLength, content.length)`. -/
def sliceAt (content : List Char) (startIndex maxLength : Nat) : List Char :=
  (content.drop startIndex).take (min (startIndex + maxLength) content.length - startIndex)

def formatDocumentationResult (url content : List Char)
    (startIndex maxLength : Nat) : List Char :=
  if content.length ≤ startIndex then noMoreMessage url
  else
    let truncatedContent := sliceAt content startIndex maxLength
    if truncatedContent.isEmpty then noMoreMessage url
    else
      let nextStart := startIndex + truncatedContent.length
      if 0 < content.length - nextStart then
        docHeader url ++ truncatedContent ++ continuationNote nextStart
      else
        docHeader url ++ truncatedContent

/-- The pages a caller obtains by starting at a given index and repeatedly
passing the `start_index` named by the continuation note
(`startIndex + slice.length`) back into `formatDocumentationResult`; each
element is the content slice of one returned page. -/
def paginationSlices (content : List Char) (maxLength : Nat) (s : Nat) :
    List (List Char) :=
  if _h : content.length ≤ s then []
  else
    if h2 : sliceAt content s maxLength = [] then []
    else
      sliceAt content s maxLength ::
        paginationSlices content maxLength (s + (sliceAt content s maxLength).length)
termination_by content.length - s
decreasing_by
  have hpos : 0 < (sliceAt content s maxLength).length := List.length_pos.mpr h2
  omega

/-! ## Basic slice lemmas -/

theorem sliceAt_length (content : List Char) (s m : Nat) :
    (sliceAt content s m).length = min m (content.length - s) := by
  simp only [sliceAt, List.length_take, List.length_drop]
  omega

theorem sliceAt_ne_nil (content : List Char) (s m : Nat)
    (hm : 1 ≤ m) (hs : s < content.length) : sliceAt content s m ≠ [] := by
  have h := sliceAt_length content s m
  intro hnil
  rw [hnil] at h
  simp only [List.length_nil] at h
  omega

/-- Claim C2: for every source label, every content string (including the
empty string), every `startIndex` at or past the end of the content and every
`maxLength ≥ 1`, `formatDocumentationResult` returns the fixed
"no more content" message wrapped with the source label, regardless of
`maxLength`. -/
theorem formatDocumentationResult_no_more_content
    (url content : List Char) (startIndex maxLength : Nat)
    (hm : 1 ≤ maxLength) (hs : content.length ≤ startIndex) :
    formatDocumentationResult url content startIndex maxLength = noMoreMessage url := by
  simp [formatDocumentationResult, hs]

/-- Witness for C2 at a concrete input: content of length 3, start index 5. -/
theorem formatDocumentationResult_no_more_content_w :
    formatDocumentationResult "u".data "abc".data 5 7 = noMoreMessage "u".data :=
  formatDocumentationResult_no_more_content "u".data "abc".data 5 7 (by decide) (by decide)

/-- Claim C3: when the slice is non-empty and content remains past it, the
output of `formatDocumentationResult` is the source-label header, then the
slice, then a continuation instruction naming exactly the next start index
`startIndex + slice.length`; when no content remains past the slice, nothing
is appended after the slice. -/
theorem formatDocumentationResult_continuation
    (url content : List Char) (startIndex maxLength : Nat)
    (hm : 1 ≤ maxLength) (hs : startIndex < content.length) :
    (startIndex + (sliceAt content startIndex maxLength).length < content.length →
       formatDocumentationResult url content startIndex maxLength =
         docHeader url ++ sliceAt content startIndex maxLength ++
           continuationNote (startIndex + (sliceAt content startIndex maxLength).length)) ∧
    (content.length ≤ startIndex + (sliceAt content startIndex maxLength).length →
       formatDocumentationResult url content startIndex maxLength =
         docHeader url ++ sliceAt content startIndex maxLength) := by
  have hnil := sliceAt_ne_nil content startIndex maxLength hm hs
  have hempty : (sliceAt content startIndex maxLength).isEmpty = false := by
    cases hcase : sliceAt content startIndex maxLength with
    | nil => exact absurd hcase hnil
    | cons a t => rfl
  constructor
  · intro hrem
    have hns : 0 < content.length - (startIndex + (sliceAt content startIndex maxLength).length) := by
      omega
    simp only [formatDocumentationResult, if_neg (by omega : ¬ content.length ≤ startIndex),
      hempty, Bool.false_eq_true, if_false, if_pos hns, List.append_assoc]
  · intro hrem
    have hns : ¬ 0 < content.length - (startIndex + (sliceAt content startIndex maxLength).length) := by
      omega
    simp only [formatDocumentationResult, if_neg (by omega : ¬ content.length ≤ startIndex),
      hempty, Bool.false_eq_true, if_false, if_neg hns]

/-- Witness for C3 at the concrete scenario from the specification: a
20-character document read with `max_length = 5`, `start_index = 0`. -/
theorem formatDocumentationResult_continuation_w :
    formatDocumentationResult "u".data "abcdefghijklmnopqrst".data 0 5 =
      docHeader "u".data ++ sliceAt "abcdefghijklmnopqrst".data 0 5 ++
        continuationNote (0 + (sliceAt "abcdefghijklmnopqrst".data 0 5).length) :=
  (formatDocumentationResult_continuation "u".data "abcdefghijklmnopqrst".data 0 5
    (by decide) (by decide)).1 (by decide)

/-! ## Pagination coverage -/

theorem take_len_append_drop (d : List Char) (k : Nat) :
    d.take k ++ d.drop (d.take k).length = d := by
  rcases Nat.le_total k d.length with h | h
  · rw [List.length_take, Nat.min_eq_left h, List.take_append_drop]
  · rw [List.take_of_length_le h, List.drop_length, List.append_nil]

theorem paginationSlices_flatten_aux (content : List Char) (maxLength : Nat)
    (hm : 1 ≤ maxLength) :
    ∀ (n s : Nat), content.length - s ≤ n →
      (paginationSlices content maxLength s).flatten = content.drop s := by
  intro n
  induction n with
  | zero =>
    intro s hs
    have h : content.length ≤ s := by omega
    rw [paginationSlices, dif_pos h]
    simp [List.drop_eq_nil_iff.mpr h]
  | succ n ih =>
    intro s _hs
    rw [paginationSlices]
    split
    · next h => simp [List.drop_eq_nil_iff.mpr h]
    · next h =>
      split
      · next h2 =>
        exact absurd h2 (sliceAt_ne_nil content s maxLength hm (by omega))
      · next h2 =>
        have hpos : 0 < (sliceAt content s maxLength).length := List.length_pos.mpr h2
        rw [List.flatten_cons,
          ih (s + (sliceAt content s maxLength).length) (by omega)]
        have hdd : content.drop (s + (sliceAt content s maxLength).length) =
            (content.drop s).drop (sliceAt content s maxLength).length := by
          rw [List.drop_drop]
        rw [hdd]
        have hslice : sliceAt content s maxLength =
            (content.drop s).take (min (s + maxLength) content.length - s) := rfl
        rw [hslice, List.length_take]
        have := take_len_append_drop (content.drop s) (min (s + maxLength) content.length - s)
        rw [List.length_take] at this
        exact this

/-- Claim C4: for every extracted text and every fixed `maxLength ≥ 1`,
starting at `start_index = 0` and repeatedly following the next start index
named by the continuation instruction, the concatenation of the content
slices of all returned pages reconstructs the full text exactly once, with no
gaps and no overlaps. -/
theorem pagination_reconstructs (content : List Char) (maxLength : Nat)
    (hm : 1 ≤ maxLength) :
    (paginationSlices content maxLength 0).flatten = content := by
  rw [paginationSlices_flatten_aux content maxLength hm content.length 0 (by omega),
    List.drop_zero]

/-- Witness for C4 at a concrete input: a 7-character text paged 3 at a time. -/
theorem pagination_reconstructs_w :
    (paginationSlices "abcdefg".data 3 0).flatten = "abcdefg".data :=
  pagination_reconstructs "abcdefg".data 3 (by decide)

theorem sentinelWrapped_ne_nil {l : List Char} (h : sentinelWrapped l) : l ≠ [] := by
  obtain ⟨mid, rfl⟩ := h
  have h3 : ("<e>".data : List Char) = '<' :: 'e' :: '>' :: [] := by decide
  rw [h3]
  simp

/-- Claim C1: for every input string (including the empty string and any
malformed markup) and every behaviour of the underlying parse/convert
pipeline, `extractContentFromHtml` returns a string and never raises; on the
empty input, on a thrown parse/conversion error, and on an empty conversion
result it returns a sentinel string of the fixed failure shape
`<e>...</e>`, and it never returns an empty result as a success value. -/
theorem extractContentFromHtml_total_sentinel
    (conv : List Char → Except (List Char) (List Char)) (html : List Char) :
    extractContentFromHtml conv html ≠ [] ∧
    (html = [] → sentinelWrapped (extractContentFromHtml conv html)) ∧
    (∀ e, conv html = .error e → sentinelWrapped (extractContentFromHtml conv html)) ∧
    (conv html = .ok [] → sentinelWrapped (extractContentFromHtml conv html)) ∧
    (∀ md, html ≠ [] → conv html = .ok md → md ≠ [] →
       extractContentFromHtml conv html = md) := by
  by_cases hh : html = []
  · have hval : extractContentFromHtml conv html = emptyHtmlSentinel := by
      simp [extractContentFromHtml, hh]
    have hw : sentinelWrapped (extractContentFromHtml conv html) :=
      ⟨"Empty HTML content".data, by rw [hval]; decide⟩
    exact ⟨sentinelWrapped_ne_nil hw, fun _ => hw, fun _ _ => hw, fun _ => hw,
      fun _ hne _ _ => absurd hh hne⟩
  · cases hc : conv html with
    | error e =>
      have hval : extractContentFromHtml conv html = convertErrorSentinel e := by
        simp [extractContentFromHtml, hh, hc]
      have hw : sentinelWrapped (extractContentFromHtml conv html) := by
        refine ⟨"Error converting HTML to Markdown: ".data ++ e, ?_⟩
        rw [hval]
        show "<e>Error converting HTML to Markdown: ".data ++ e ++ "</e>".data = _
        have hhead : ("<e>Error converting HTML to Markdown: ".data : List Char) =
            "<e>".data ++ "Error converting HTML to Markdown: ".data := by decide
        rw [hhead]
        simp [List.append_assoc]
      refine ⟨sentinelWrapped_ne_nil hw, fun h => absurd h hh, fun _ _ => hw, ?_, ?_⟩
      · intro h
        simp [hc] at h
      · intro md _ h
        simp [hc] at h
    | ok md =>
      by_cases hmd : md = []
      · subst hmd
        have hval : extractContentFromHtml conv html = notSimplifiedSentinel := by
          simp [extractContentFromHtml, hh, hc]
        have hw : sentinelWrapped (extractContentFromHtml conv html) :=
          ⟨"Page failed to be simplified from HTML".data, by rw [hval]; decide⟩
        refine ⟨sentinelWrapped_ne_nil hw, fun h => absurd h hh, ?_, fun _ => hw, ?_⟩
        · intro e he
          simp [hc] at he
        · intro md2 _ h hne
          injection h with h2
          exact absurd h2.symm hne
      · have hval : extractContentFromHtml conv html = md := by
          simp [extractContentFromHtml, hh, hc, hmd]
        refine ⟨?_, fun h => absurd h hh, ?_, ?_, ?_⟩
        · rw [hval]
          exact hmd
        · intro e he
          simp [hc] at he
        · intro h
          injection h with h2
          exact absurd h2 hmd
        · intro md2 _ h _
          injection h with h2
          rw [hval, h2]

/-- Witness for C1: a converter that succeeds with a non-empty markdown on a
non-empty input is passed through unchanged. -/
theorem extractContentFromHtml_total_sentinel_w :
    extractContentFromHtml (fun _ => Except.ok ("ok".data)) "<p>x</p>".data = "ok".data :=
  (extractContentFromHtml_total_sentinel (fun _ => Except.ok ("ok".data))
    "<p>x</p>".data).2.2.2.2 "ok".data (by decide) rfl (by decide)

/-! ## tools.ts: readDocumentation

The URL validation runs before the `try` block, so its two errors propagate
unwrapped; everything inside the `try` is wrapped by the `catch`.  The
network call is an explicit oracle `FetchStep`: either the underlying fetch
throws (carrying the string rendering of the thrown value) or it returns a
response with an ok-flag, a status code, a body and a content-type (the empty
list models a missing content-type header, as the source coalesces a missing
header to the empty string). -/

def matchesDocsDomain (url : List Char) : Bool :=
  "https://docs.aws.amazon.com/".data.isPrefixOf url ||
    "http://docs.aws.amazon.com/".data.isPrefixOf url

def endsWithHtml (url : List Char) : Bool :=
  ".html".data.isSuffixOf url

inductive RdError where
  | notDocsDomain
  | notHtmlSuffix
  | fetchFailed (detail : List Char)
deriving DecidableEq

def isValidationError : RdError → Bool
  | .notDocsDomain => true
  | .notHtmlSuffix => true
  | .fetchFailed _ => false

inductive FetchStep where
  | throws (srep : List Char)
  | returns (ok : Bool) (status : Nat) (body contentType : List Char)
deriving DecidableEq

/-- String rendering of the Error thrown on a non-2xx response. -/
def fetchStatusDetail (url : List Char) (status : Nat) : List Char :=
  "Error: Failed to fetch ".data ++ url ++ " - status code ".data ++ (Nat.repr status).data

def readDocumentation (conv : List Char → Except (List Char) (List Char))
    (fetch : FetchStep) (url : List Char) (maxLength startIndex : Nat) :
    Except RdError (List Char) :=
  if matchesDocsDomain url = false then .error .notDocsDomain
  else if endsWithHtml url = false then .error .notHtmlSuffix
  else
    match fetch with
    | .throws srep => .error (.fetchFailed srep)
    | .returns ok status body contentType =>
      if ok = false then .error (.fetchFailed (fetchStatusDetail url status))
      else
        .ok (formatDocumentationResult url
          (if isHtmlContent body contentType then extractContentFromHtml conv body else body)
          startIndex maxLength)

/-- Modelled from the spec: the path component of a URL, read as the portion
of the URL before any query (`?`) or fragment (`#`).  Used only to compare
the claim wording "path ends with .html" against the whole-URL suffix check
the source performs; the source itself never parses the URL. -/
def specUrlPath (url : List Char) : List Char :=
  url.takeWhile (fun c => !(c == '?') && !(c == '#'))

def specPathEndsWithHtml (url : List Char) : Bool :=
  ".html".data.isSuffixOf (specUrlPath url)

/-- Counterexample to claim C5 as stated: the URL
`https://docs.aws.amazon.com/a?b=.html` has a path (`/a`) that does not end
with `.html`, yet `readDocumentation` accepts it and proceeds to the fetch
(returning a formatted page rather than a validation error), because the
source checks the `.html` suffix on the whole URL string, query included. -/
theorem readDocumentation_accepts_query_html :
    readDocumentation (fun _ => Except.ok ("md".data))
        (.returns true 200 "hi".data "text/plain".data)
        "https://docs.aws.amazon.com/a?b=.html".data 5000 0 =
      .ok (formatDocumentationResult "https://docs.aws.amazon.com/a?b=.html".data
        "hi".data 0 5000) ∧
    specPathEndsWithHtml "https://docs.aws.amazon.com/a?b=.html".data = false := by
  exact ⟨rfl, by decide⟩

/-- Claim C5 (amended): `readDocumentation` accepts exactly the URLs that
start with `http://docs.aws.amazon.com/` or `https://docs.aws.amazon.com/`
and whose whole URL string (not its path component) ends with `.html`; every
other URL fails with a validation error that is fully determined by the URL
alone - the same error for every behaviour of the network and of the HTML
converter, so no fetch outcome can influence a rejected call. -/
theorem readDocumentation_url_validation (url : List Char) (maxLength startIndex : Nat) :
    (¬ (matchesDocsDomain url = true ∧ endsWithHtml url = true) →
       ∃ e, isValidationError e = true ∧
         ∀ conv fetch, readDocumentation conv fetch url maxLength startIndex = .error e) ∧
    (matchesDocsDomain url = true → endsWithHtml url = true →
       ∀ conv fetch e, readDocumentation conv fetch url maxLength startIndex = .error e →
         isValidationError e = false) := by
  constructor
  · intro hnv
    by_cases hd : matchesDocsDomain url = true
    · have hs : endsWithHtml url = false := by
        cases hcase : endsWithHtml url
        · rfl
        · exact absurd ⟨hd, hcase⟩ hnv
      exact ⟨.notHtmlSuffix, rfl, fun conv fetch => by simp [readDocumentation, hd, hs]⟩
    · have hd2 : matchesDocsDomain url = false := by
        cases hcase : matchesDocsDomain url
        · rfl
        · exact absurd hcase hd
      exact ⟨.notDocsDomain, rfl, fun conv fetch => by simp [readDocumentation, hd2]⟩
  · intro hd hs conv fetch e he
    cases fetch with
    | throws srep =>
      simp [readDocumentation, hd, hs] at he
      subst he
      rfl
    | returns ok status body contentType =>
      cases ok with
      | false =>
        simp [readDocumentation, hd, hs] at he
        subst he
        rfl
      | true =>
        simp [readDocumentation, hd, hs] at he

/-- Witness for C5 (amended) at a concrete rejected URL. -/
theorem readDocumentation_url_validation_w :
    ∃ e, isValidationError e = true ∧
      ∀ conv fetch, readDocumentation conv fetch "https://example.com/x".data 5000 0 =
        .error e :=
  (readDocumentation_url_validation "https://example.com/x".data 5000 0).1 (by decide)

/-- Claim C10: a fetched page body is routed through the HTML extractor if
and only if its first 100 characters contain `<html`, or the content-type
contains `text/html`, or the content-type string is empty; a response with no
content-type header (modelled as the empty string, as the source coalesces a
missing header) is always treated as HTML, and a body classified as non-HTML
is passed to the pagination formatter unmodified as plain text. -/
theorem readDocumentation_html_routing
    (conv : List Char → Except (List Char) (List Char)) (status : Nat)
    (body contentType url : List Char) (maxLength startIndex : Nat)
    (h1 : matchesDocsDomain url = true) (h2 : endsWithHtml url = true) :
    readDocumentation conv (.returns true status body contentType) url maxLength startIndex =
      .ok (formatDocumentationResult url
        (if isHtmlContent body contentType then extractContentFromHtml conv body else body)
        startIndex maxLength) ∧
    (isHtmlContent body contentType = true ↔
      (containsSub (body.take 100) "<html".data = true ∨
       containsSub contentType "text/html".data = true ∨ contentType = [])) ∧
    isHtmlContent body [] = true := by
  refine ⟨by simp [readDocumentation, h1, h2], ?_, by simp [isHtmlContent]⟩
  simp [isHtmlContent, Bool.or_eq_true, List.isEmpty_iff]
  tauto

/-- Witness for C10 at a concrete valid URL with a plain-text response. -/
theorem readDocumentation_html_routing_w :
    readDocumentation (fun _ => Except.ok ("md".data))
        (.returns true 200 "plain body".data "text/plain".data)
        "https://docs.aws.amazon.com/x.html".data 100 0 =
      .ok (formatDocumentationResult "https://docs.aws.amazon.com/x.html".data
        (if isHtmlContent "plain body".data "text/plain".data then
          extractContentFromHtml (fun _ => Except.ok ("md".data)) "plain body".data
        else "plain body".data)
        0 100) :=
  (readDocumentation_html_routing (fun _ => Except.ok ("md".data)) 200
    "plain body".data "text/plain".data "https://docs.aws.amazon.com/x.html".data
    100 0 (by decide) (by decide)).1

/-! ## tools.ts: searchDocumentation

The parsed search-API response is a list of suggestions; each may or may not
carry a `textExcerptSuggestion` object.  JavaScript truthiness on the string
fields (an empty string is falsy) is modelled explicitly.  The loop runs the
index `i` over the first `min(limit, n)` suggestions and pushes a result with
`rank_order = i + 1` only for suggestions carrying a `textExcerptSuggestion`;
the index advances either way. -/

structure TextExcerptSuggestion where
  summary : Option (List Char)
  suggestionBody : Option (List Char)
  link : Option (List Char)
  title : Option (List Char)
deriving DecidableEq

structure Suggestion where
  textExcerptSuggestion : Option TextExcerptSuggestion
deriving DecidableEq

structure SearchResult where
  rank_order : Nat
  url : List Char
  title : List Char
  context : Option (List Char)
deriving DecidableEq

/-- JavaScript truthiness of a possibly-absent string value. -/
def truthyStr : Option (List Char) → Bool
  | none => false
  | some s => !s.isEmpty

/-- JavaScript `value || ''` on a possibly-absent string value. -/
def orEmptyStr : Option (List Char) → List Char
  | none => []
  | some s => s

def suggestionContext (t : TextExcerptSuggestion) : Option (List Char) :=
  if truthyStr t.summary then t.summary
  else if truthyStr t.suggestionBody then t.suggestionBody
  else none

def mkSearchResult (i : Nat) (t : TextExcerptSuggestion) : SearchResult :=
  { rank_order := i + 1, url := orEmptyStr t.link, title := orEmptyStr t.title,
    context := suggestionContext t }

def searchResultsAux : List Suggestion → Nat → List SearchResult
  | [], _ => []
  | sug :: rest, i =>
    match sug.textExcerptSuggestion with
    | some t => mkSearchResult i t :: searchResultsAux rest (i + 1)
    | none => searchResultsAux rest (i + 1)

def searchDocumentation (suggestions : List Suggestion) (limit : Nat) :
    List SearchResult :=
  searchResultsAux (suggestions.take limit) 0

theorem searchResultsAux_rank_lower : ∀ (l : List Suggestion) (i : Nat)
    (r : SearchResult), r ∈ searchResultsAux l i → i < r.rank_order := by
  intro l
  induction l with
  | nil =>
    intro i r hr
    simp [searchResultsAux] at hr
  | cons sug rest ih =>
    intro i r hr
    rw [searchResultsAux] at hr
    cases hcase : sug.textExcerptSuggestion with
    | some t =>
      rw [hcase] at hr
      rcases List.mem_cons.mp hr with h | h
      · rw [h]
        simp [mkSearchResult]
      · have := ih (i + 1) r h
        omega
    | none =>
      rw [hcase] at hr
      have := ih (i + 1) r hr
      omega

theorem searchResultsAux_pairwise : ∀ (l : List Suggestion) (i : Nat),
    List.Pairwise (fun a b => a.rank_order < b.rank_order) (searchResultsAux l i) := by
  intro l
  induction l with
  | nil =>
    intro i
    simp [searchResultsAux]
  | cons sug rest ih =>
    intro i
    rw [searchResultsAux]
    cases hcase : sug.textExcerptSuggestion with
    | some t =>
      refine List.Pairwise.cons ?_ (ih (i + 1))
      intro r hr
      have := searchResultsAux_rank_lower rest (i + 1) r hr
      simp [mkSearchResult]
      omega
    | none =>
      exact ih (i + 1)

theorem searchResultsAux_all_some : ∀ (l : List Suggestion) (i : Nat),
    (∀ s ∈ l, s.textExcerptSuggestion.isSome = true) →
    (searchResultsAux l i).map SearchResult.rank_order = List.range' (i + 1) l.length := by
  intro l
  induction l with
  | nil =>
    intro i _
    simp [searchResultsAux]
  | cons sug rest ih =>
    intro i hall
    have hhead : sug.textExcerptSuggestion.isSome = true := hall sug (by simp)
    cases hcase : sug.textExcerptSuggestion with
    | none =>
      rw [hcase] at hhead
      simp at hhead
    | some t =>
      rw [searchResultsAux, hcase, List.map_cons,
        ih (i + 1) (fun s hs => hall s (List.mem_cons_of_mem sug hs))]
      simp [mkSearchResult, List.range', List.length_cons]

theorem searchResultsAux_positions : ∀ (l : List Suggestion) (i : Nat),
    (searchResultsAux l i).map SearchResult.rank_order =
      (List.enumFrom i l).filterMap
        (fun p => if p.2.textExcerptSuggestion.isSome then some (p.1 + 1) else none) := by
  intro l
  induction l with
  | nil =>
    intro i
    simp [searchResultsAux]
  | cons sug rest ih =>
    intro i
    rw [searchResultsAux]
    cases hcase : sug.textExcerptSuggestion with
    | some t =>
      simp [List.enumFrom, List.filterMap_cons, hcase, mkSearchResult, ih (i + 1)]
    | none =>
      simp [List.enumFrom, List.filterMap_cons, hcase, ih (i + 1)]

theorem searchResultsAux_length_le : ∀ (l : List Suggestion) (i : Nat),
    (searchResultsAux l i).length ≤ l.length := by
  intro l
  induction l with
  | nil =>
    intro i
    simp [searchResultsAux]
  | cons sug rest ih =>
    intro i
    rw [searchResultsAux]
    cases hcase : sug.textExcerptSuggestion with
    | some t =>
      simp only [List.length_cons]
      exact Nat.succ_le_succ (ih (i + 1))
    | none =>
      simp only [List.length_cons]
      exact Nat.le_succ_of_le (ih (i + 1))

theorem searchResultsAux_full_length : ∀ (l : List Suggestion) (i : Nat),
    (searchResultsAux l i).length = l.length →
    ∀ s ∈ l, s.textExcerptSuggestion.isSome = true := by
  intro l
  induction l with
  | nil =>
    intro i _ s hs
    simp at hs
  | cons sug rest ih =>
    intro i hlen s hs
    rw [searchResultsAux] at hlen
    cases hcase : sug.textExcerptSuggestion with
    | some t =>
      rw [hcase] at hlen
      simp only [List.length_cons, Nat.add_right_cancel_iff] at hlen
      rcases List.mem_cons.mp hs with h | h
      · rw [h, hcase]
        rfl
      · exact ih (i + 1) hlen s h
    | none =>
      rw [hcase] at hlen
      rw [List.length_cons] at hlen
      have hle := searchResultsAux_length_le rest (i + 1)
      rw [hlen] at hle
      exact absurd hle (by omega)

/-- Counterexample to claim C6 as stated: on a response whose first
suggestion carries no `textExcerptSuggestion` and whose second does, with
`limit = 2`, the emitted `rank_order` values are `[2]`, not `1..min(2,2)`:
the loop index advances on skipped suggestions, so rank 1 is skipped and the
result count falls short of `min(limit, n)`. -/
theorem searchDocumentation_rank_gap :
    (searchDocumentation [⟨none⟩, ⟨some ⟨none, none, none, none⟩⟩] 2).map
        SearchResult.rank_order = [2] ∧
    ([2] : List Nat) ≠ List.range' 1 (min 2
      ([⟨none⟩, ⟨some ⟨none, none, none, none⟩⟩] : List Suggestion).length) := by
  exact ⟨rfl, by decide⟩

/-- Claim C6 (amended): the `rank_order` values emitted by
`searchDocumentation` are exactly one plus the 0-based positions, among the
first `min(limit, n)` response entries (their enumeration), of the
suggestions carrying a `textExcerptSuggestion`, in response order; they are
therefore strictly increasing in emission order, and they equal exactly
`1..min(limit, n)` if and only if every suggestion among those first
`min(limit, n)` entries carries a `textExcerptSuggestion` - a suggestion
without one consumes its index, leaving a gap. -/
theorem searchDocumentation_rank_order (suggestions : List Suggestion) (limit : Nat) :
    (searchDocumentation suggestions limit).map SearchResult.rank_order =
      ((suggestions.take limit).enum.filterMap
        (fun p => if p.2.textExcerptSuggestion.isSome then some (p.1 + 1) else none)) ∧
    List.Pairwise (fun a b => a.rank_order < b.rank_order)
      (searchDocumentation suggestions limit) ∧
    ((searchDocumentation suggestions limit).map SearchResult.rank_order =
        List.range' 1 (min limit suggestions.length) ↔
      (∀ s ∈ suggestions.take limit, s.textExcerptSuggestion.isSome = true)) := by
  refine ⟨searchResultsAux_positions (suggestions.take limit) 0,
    searchResultsAux_pairwise _ 0, ?_, ?_⟩
  · intro heq
    have hlen := congrArg List.length heq
    simp only [List.length_map] at hlen
    rw [List.length_range'] at hlen
    refine searchResultsAux_full_length (suggestions.take limit) 0 ?_
    rw [List.length_take]
    exact hlen
  · intro hall
    have h := searchResultsAux_all_some (suggestions.take limit) 0 hall
    rw [List.length_take] at h
    simpa [searchDocumentation] using h

/-- Witness for C6 (amended): one suggestion with a `textExcerptSuggestion`,
limit 1, yields exactly rank 1. -/
theorem searchDocumentation_rank_order_w :
    (searchDocumentation [⟨some ⟨none, none, none, none⟩⟩] 1).map
        SearchResult.rank_order = List.range' 1 (min 1 1) :=
  (searchDocumentation_rank_order [⟨some ⟨none, none, none, none⟩⟩] 1).2.2.mpr (by decide)

/-! ## server.ts: MCPServer.handleMessage

The dispatcher guard `if (!message.id) throw ...` runs before the `try`
block, so that one exception escapes the dispatcher; everything after it is
wrapped by the `catch`, which maps any thrown failure to a `-32603` envelope
carrying the failure message.  Ids are strings or numbers with JavaScript
truthiness (empty string and zero are falsy).  The three tool
implementations appear through their JS-level wrappers, with the network
calls as oracles: the search and recommendations oracles yield either the
thrown-error text or the parsed response. -/

inductive MsgId where
  | str (s : List Char)
  | num (n : Int)
deriving DecidableEq

def truthyId : Option MsgId → Bool
  | none => false
  | some (.str s) => !s.isEmpty
  | some (.num n) => n != 0

structure ToolArgs where
  url : Option (List Char)
  max_length : Option Nat
  start_index : Option Nat
  search_phrase : Option (List Char)
  limit : Option Nat
deriving DecidableEq

structure ToolParams where
  name : Option (List Char)
  arguments : Option ToolArgs
deriving DecidableEq

structure MCPMessage where
  id : Option MsgId
  method : Option (List Char)
  params : Option ToolParams
deriving DecidableEq

structure ErrObj where
  code : Int
  message : List Char
deriving DecidableEq

structure RecommendationResult where
  url : List Char
  title : List Char
  context : Option (List Char)
deriving DecidableEq

inductive CallPayload where
  | text (s : List Char)
  | searchJson (rs : List SearchResult)
  | recJson (rs : List RecommendationResult)
deriving DecidableEq

inductive RpcPayload where
  | initInfo
  | toolsListing
  | callResult (p : CallPayload)
deriving DecidableEq

structure RpcResponse where
  id : Option MsgId
  result : Option RpcPayload
  error : Option ErrObj
deriving DecidableEq

def emptyArgs : ToolArgs := ⟨none, none, none, none, none⟩

/-- JavaScript `message.params?.name`. -/
def toolNameOf (msg : MCPMessage) : Option (List Char) :=
  match msg.params with
  | none => none
  | some p => p.name

/-- JavaScript `message.params?.arguments || \x7b\x7d`. -/
def argsOf (msg : MCPMessage) : ToolArgs :=
  match msg.params with
  | none => emptyArgs
  | some p =>
    match p.arguments with
    | none => emptyArgs
    | some a => a

/-- Template-literal interpolation of a possibly-undefined string. -/
def strOrUndefined : Option (List Char) → List Char
  | none => "undefined".data
  | some s => s

/-- The keys registered in the `tools` map of the MCPServer constructor. -/
def knownTool (n : List Char) : Bool :=
  n == "read_documentation".data || n == "search_documentation".data ||
    n == "recommend".data

/-- JavaScript `value || default` on a possibly-absent number (zero is falsy). -/
def numOr (o : Option Nat) (d : Nat) : Nat :=
  match o with
  | none => d
  | some n => if n = 0 then d else n

/-- `readDocumentation` as called with a raw (possibly undefined) `args.url`:
`url.match(...)` on `undefined` throws a TypeError; validation errors
propagate unwrapped (they are thrown before the `try`), while failures inside
the `try` are rethrown as `Failed to fetch <url>: <error>`. -/
def readDocumentationJS (conv : List Char → Except (List Char) (List Char))
    (fetch : FetchStep) (url : Option (List Char)) (maxLength startIndex : Nat) :
    Except (List Char) (List Char) :=
  match url with
  | none => .error ("Cannot read properties of undefined (reading 'match')".data)
  | some u =>
    match readDocumentation conv fetch u maxLength startIndex with
    | .error .notDocsDomain =>
      .error ("URL must be from the docs.aws.amazon.com domain".data)
    | .error .notHtmlSuffix => .error ("URL must end with .html".data)
    | .error (.fetchFailed d) => .error ("Failed to fetch ".data ++ u ++ ": ".data ++ d)
    | .ok r => .ok r

/-- `searchDocumentation` as called by the dispatcher: a missing
`search_phrase` only affects the request body sent over the network (the
oracle), never a local throw; a network failure is rethrown as
`Error searching AWS docs: ...`. -/
def searchDocumentationJS (fetch : Except (List Char) (List Suggestion))
    (_searchPhrase : Option (List Char)) (limit : Nat) :
    Except (List Char) (List SearchResult) :=
  match fetch with
  | .error e => .error ("Error searching AWS docs: ".data ++ e)
  | .ok suggestions => .ok (searchDocumentation suggestions limit)

/-- `recommend` as called by the dispatcher: a missing `url` is interpolated
into the request URL as the text `undefined`, never a local throw; the oracle
yields the parsed recommendation groups. -/
def recommendJS (fetch : Except (List Char) (List RecommendationResult))
    (_url : Option (List Char)) : Except (List Char) (List RecommendationResult) :=
  match fetch with
  | .error e => .error ("Error getting recommendations: ".data ++ e)
  | .ok rs => .ok rs

/-- The inner `switch (toolName)` of the tools/call branch; its default arm
throws `Unhandled tool: ...`, caught by the surrounding catch. -/
def dispatchTool (conv : List Char → Except (List Char) (List Char))
    (fd : FetchStep) (fs : Except (List Char) (List Suggestion))
    (fr : Except (List Char) (List RecommendationResult))
    (name : List Char) (args : ToolArgs) : Except (List Char) CallPayload :=
  if name = "read_documentation".data then
    (readDocumentationJS conv fd args.url (numOr args.max_length 5000)
      (numOr args.start_index 0)).map .text
  else if name = "search_documentation".data then
    (searchDocumentationJS fs args.search_phrase (numOr args.limit 10)).map .searchJson
  else if name = "recommend".data then
    (recommendJS fr args.url).map .recJson
  else .error ("Unhandled tool: ".data ++ name)

/-- The body of `handleMessage` inside the `try` block: every branch returns
an envelope; any throw inside is caught and mapped to `-32603`. -/
def handleMessageBody (conv : List Char → Except (List Char) (List Char))
    (fd : FetchStep) (fs : Except (List Char) (List Suggestion))
    (fr : Except (List Char) (List RecommendationResult))
    (msg : MCPMessage) : RpcResponse :=
  if msg.method = some ("initialize".data) then ⟨msg.id, some .initInfo, none⟩
  else if msg.method = some ("tools/list".data) then ⟨msg.id, some .toolsListing, none⟩
  else if msg.method = some ("tools/call".data) then
    if !truthyStr (toolNameOf msg) || !knownTool ((toolNameOf msg).getD []) then
      ⟨msg.id, none, some ⟨-32601, "Unknown tool: ".data ++ strOrUndefined (toolNameOf msg)⟩⟩
    else
      match dispatchTool conv fd fs fr ((toolNameOf msg).getD []) (argsOf msg) with
      | .error m => ⟨msg.id, none, some ⟨-32603, m⟩⟩
      | .ok p => ⟨msg.id, some (.callResult p), none⟩
  else ⟨msg.id, none, some ⟨-32601, "Unknown method: ".data ++ strOrUndefined msg.method⟩⟩

def handleMessage (conv : List Char → Except (List Char) (List Char))
    (fd : FetchStep) (fs : Except (List Char) (List Suggestion))
    (fr : Except (List Char) (List RecommendationResult))
    (msg : MCPMessage) : Except (List Char) RpcResponse :=
  if truthyId msg.id = false then .error ("Message must have an id".data)
  else .ok (handleMessageBody conv fd fs fr msg)

/-! Concrete oracle instances used by closed statements. -/

def conv₀ : List Char → Except (List Char) (List Char) := fun _ => Except.ok ("md".data)

def fetchDoc₀ : FetchStep := .returns true 200 ("<p>x</p>".data) ("text/html".data)

def fetchSearch₀ : Except (List Char) (List Suggestion) := .ok []

def fetchRec₀ : Except (List Char) (List RecommendationResult) := .ok []

/-! Disequalities between the method-name literals, shared by the
dispatcher proofs. -/

theorem toolsCall_ne_initialize : ¬ (("tools/call".data : List Char) = "initialize".data) := by
  decide

theorem toolsCall_ne_toolsList : ¬ (("tools/call".data : List Char) = "tools/list".data) := by
  decide

/-- Counterexample to claim C7 as stated: a tools/call request with an
unknown tool name but no id does not get a `-32601` envelope - the
`if (!message.id) throw` guard sits before the `try` block, so the exception
escapes the dispatcher. -/
theorem handleMessage_unknown_tool_missing_id_throws :
    handleMessage conv₀ fetchDoc₀ fetchSearch₀ fetchRec₀
        ⟨none, some ("tools/call".data), some ⟨some ("nope".data), none⟩⟩ =
      .error ("Message must have an id".data) := rfl

/-- Claim C7 (amended): for every tools/call request bearing a truthy id
(non-empty string or non-zero number) whose `params.name` is absent, falsy,
or not the name of a registered tool, the dispatcher returns a structured
error envelope with code `-32601` and never throws; a request without a
truthy id instead throws `Message must have an id` before dispatch. -/
theorem handleMessage_unknown_tool
    (conv : List Char → Except (List Char) (List Char)) (fd : FetchStep)
    (fs : Except (List Char) (List Suggestion))
    (fr : Except (List Char) (List RecommendationResult)) (msg : MCPMessage)
    (hid : truthyId msg.id = true)
    (hm : msg.method = some ("tools/call".data))
    (hname : (!truthyStr (toolNameOf msg) || !knownTool ((toolNameOf msg).getD [])) = true) :
    handleMessage conv fd fs fr msg =
      .ok ⟨msg.id, none,
        some ⟨-32601, "Unknown tool: ".data ++ strOrUndefined (toolNameOf msg)⟩⟩ := by
  simp [handleMessage, hid, handleMessageBody, hm, toolsCall_ne_initialize,
    toolsCall_ne_toolsList, hname]

/-- Witness for C7 (amended) at a concrete unknown tool name. -/
theorem handleMessage_unknown_tool_w :
    handleMessage conv₀ fetchDoc₀ fetchSearch₀ fetchRec₀
        ⟨some (.num 1), some ("tools/call".data), some ⟨some ("bogus".data), none⟩⟩ =
      .ok ⟨some (.num 1), none, some ⟨-32601, "Unknown tool: ".data ++
        strOrUndefined (toolNameOf ⟨some (.num 1), some ("tools/call".data),
          some ⟨some ("bogus".data), none⟩⟩)⟩⟩ :=
  handleMessage_unknown_tool conv₀ fetchDoc₀ fetchSearch₀ fetchRec₀
    ⟨some (.num 1), some ("tools/call".data), some ⟨some ("bogus".data), none⟩⟩
    (by decide) rfl (by decide)

/-- Counterexample to claim C8 as stated: a tools/call naming
`read_documentation` with the required `url` argument absent yields an
envelope with code `-32603` (the handler TypeError mapped by the catch), not
`-32602`: the dispatcher performs no schema validation of tool arguments. -/
theorem handleMessage_missing_url_code :
    handleMessage conv₀ fetchDoc₀ fetchSearch₀ fetchRec₀
        ⟨some (.num 1), some ("tools/call".data),
          some ⟨some ("read_documentation".data), some emptyArgs⟩⟩ =
      .ok ⟨some (.num 1), none, some ⟨-32603,
        "Cannot read properties of undefined (reading 'match')".data⟩⟩ ∧
    (-32603 : Int) ≠ -32602 := by
  exact ⟨rfl, by decide⟩

/-- Claim C8 (amended): the dispatcher performs no per-argument schema
validation.  A tools/call naming `read_documentation` without `url` returns
an error envelope with code `-32603` carrying the TypeError message raised by
the handler (not `-32602`); a tools/call naming `search_documentation`
without `search_phrase` does not fail validation at all - it proceeds to the
upstream search call and returns whatever that call produces; and a
tools/call naming `recommend` without `url` likewise proceeds to the upstream
recommendations call and returns its parsed response. -/
theorem handleMessage_missing_required_arg
    (conv : List Char → Except (List Char) (List Char)) (fd : FetchStep)
    (fr : Except (List Char) (List RecommendationResult)) (id : MsgId)
    (suggestions : List Suggestion) (recs : List RecommendationResult)
    (hid : truthyId (some id) = true) :
    (∀ (args : ToolArgs), args.url = none → ∀ fs,
      handleMessage conv fd fs fr
          ⟨some id, some ("tools/call".data),
            some ⟨some ("read_documentation".data), some args⟩⟩ =
        .ok ⟨some id, none, some ⟨-32603,
          "Cannot read properties of undefined (reading 'match')".data⟩⟩) ∧
    (∀ (args : ToolArgs), args.search_phrase = none →
      handleMessage conv fd (.ok suggestions) fr
          ⟨some id, some ("tools/call".data),
            some ⟨some ("search_documentation".data), some args⟩⟩ =
        .ok ⟨some id, some (.callResult (.searchJson
          (searchDocumentation suggestions (numOr args.limit 10)))), none⟩) ∧
    (∀ (args : ToolArgs), args.url = none → ∀ fs,
      handleMessage conv fd fs (.ok recs)
          ⟨some id, some ("tools/call".data),
            some ⟨some ("recommend".data), some args⟩⟩ =
        .ok ⟨some id, some (.callResult (.recJson recs)), none⟩) := by
  refine ⟨?_, ?_, ?_⟩
  · intro args hurl fs
    simp [handleMessage, hid, handleMessageBody, toolsCall_ne_initialize,
      toolsCall_ne_toolsList, toolNameOf, argsOf, truthyStr, knownTool,
      dispatchTool, readDocumentationJS, hurl, Except.map]
  · intro args _
    simp [handleMessage, hid, handleMessageBody, toolsCall_ne_initialize,
      toolsCall_ne_toolsList, toolNameOf, argsOf, truthyStr, knownTool,
      dispatchTool, searchDocumentationJS, Except.map]
  · intro args _ fs
    simp [handleMessage, hid, handleMessageBody, toolsCall_ne_initialize,
      toolsCall_ne_toolsList, toolNameOf, argsOf, truthyStr, knownTool,
      dispatchTool, recommendJS, Except.map]

/-- Witness for C8 (amended) at a concrete message with empty arguments. -/
theorem handleMessage_missing_required_arg_w :
    handleMessage conv₀ fetchDoc₀ fetchSearch₀ fetchRec₀
        ⟨some (.num 2), some ("tools/call".data),
          some ⟨some ("read_documentation".data), some emptyArgs⟩⟩ =
      .ok ⟨some (.num 2), none, some ⟨-32603,
        "Cannot read properties of undefined (reading 'match')".data⟩⟩ :=
  (handleMessage_missing_required_arg conv₀ fetchDoc₀ fetchRec₀ (.num 2) [] []
    (by decide)).1 emptyArgs rfl fetchSearch₀

/-- Counterexample to claim C9 as stated: a message whose id is the falsy
number 0 makes the dispatcher throw `Message must have an id` - the guard
runs before the `try` block, so this exception escapes uncaught. -/
theorem handleMessage_falsy_id_escapes :
    handleMessage conv₀ fetchDoc₀ fetchSearch₀ fetchRec₀
        ⟨some (.num 0), some ("initialize".data), none⟩ =
      .error ("Message must have an id".data) := rfl

/-- Claim C9 (amended): for every inbound message bearing a truthy id, the
dispatcher never lets an exception escape - it always returns an envelope -
and any failure raised by a tool handler is caught at the dispatcher boundary
and mapped to an error envelope with code `-32603` carrying the failure
message; a message without a truthy id instead throws before the `try`. -/
theorem handleMessage_no_escape_internal_error
    (conv : List Char → Except (List Char) (List Char)) (fd : FetchStep)
    (fs : Except (List Char) (List Suggestion))
    (fr : Except (List Char) (List RecommendationResult)) (msg : MCPMessage)
    (hid : truthyId msg.id = true) :
    handleMessage conv fd fs fr msg = .ok (handleMessageBody conv fd fs fr msg) ∧
    (∀ name m, msg.method = some ("tools/call".data) →
      toolNameOf msg = some name → knownTool name = true →
      dispatchTool conv fd fs fr name (argsOf msg) = .error m →
      handleMessage conv fd fs fr msg = .ok ⟨msg.id, none, some ⟨-32603, m⟩⟩) := by
  have h1 : handleMessage conv fd fs fr msg = .ok (handleMessageBody conv fd fs fr msg) := by
    simp [handleMessage, hid]
  refine ⟨h1, ?_⟩
  intro name m hm hname hknown hdisp
  have hnn : name ≠ [] := by
    intro hnil
    rw [hnil] at hknown
    exact absurd hknown (by decide)
  rw [h1]
  simp [handleMessageBody, hm, toolsCall_ne_initialize, toolsCall_ne_toolsList,
    hname, truthyStr, List.isEmpty_iff, hnn, hknown, hdisp]

/-- Witness for C9 (amended): a read_documentation call on a non-AWS URL
throws in the handler and is mapped to a `-32603` envelope with that
message. -/
theorem handleMessage_no_escape_internal_error_w :
    handleMessage conv₀ fetchDoc₀ fetchSearch₀ fetchRec₀
        ⟨some (.num 7), some ("tools/call".data),
          some ⟨some ("read_documentation".data),
            some ⟨some ("https://nope.example/".data), none, none, none, none⟩⟩⟩ =
      .ok ⟨some (.num 7), none, some ⟨-32603,
        "URL must be from the docs.aws.amazon.com domain".data⟩⟩ :=
  (handleMessage_no_escape_internal_error conv₀ fetchDoc₀ fetchSearch₀ fetchRec₀
    ⟨some (.num 7), some ("tools/call".data),
      some ⟨some ("read_documentation".data),
        some ⟨some ("https://nope.example/".data), none, none, none, none⟩⟩⟩
    (by decide)).2 ("read_documentation".data)
    ("URL must be from the docs.aws.amazon.com domain".data) rfl rfl (by decide) rfl

end AwsDocs
